import Mathlib

/-
Verification of the AMD64 JIT assembler of the LLGL repository
(sources/JIT/Arch/AMD64/AMD64Assembler.cpp together with the opcode
constants of AMD64Opcode.h).

The assembler is embedded shallowly: every emission primitive of the
C++ class becomes one constructor of an abstract instruction type
together with an `encode` function producing the exact byte sequence
the C++ method writes, and the call-site compiler `WriteFuncCall`
together with the prologue `Begin` and the epilogue `End` become
functions from the argument list to instruction sequences, mirroring
the C++ control flow statement by statement.
-/

namespace LLGL.JIT

/-- Modelled from the spec: the register enumeration of the assembler
register header, which is not part of the given sources.  Only the
registers the given source file mentions are included: the sixteen
64-bit general-purpose registers and the eight SSE registers used for
floating-point arguments.  The enumeration order (general-purpose
registers RAX..R15 first, then XMM0..XMM7) realises the ordered
comparisons of the source such as `reg >= Reg::R8 && reg <= Reg::R15`. -/
inductive Reg
  | RAX | RCX | RDX | RBX | RSP | RBP | RSI | RDI
  | R8  | R9  | R10 | R11 | R12 | R13 | R14 | R15
  | XMM0 | XMM1 | XMM2 | XMM3 | XMM4 | XMM5 | XMM6 | XMM7
deriving DecidableEq, Repr

/-- Modelled from the spec: the position of each register in the
enumeration of the register header (used for the ordered comparisons
of the source). -/
def regOrd : Reg → Nat
  | .RAX => 0  | .RCX => 1  | .RDX => 2  | .RBX => 3
  | .RSP => 4  | .RBP => 5  | .RSI => 6  | .RDI => 7
  | .R8  => 8  | .R9  => 9  | .R10 => 10 | .R11 => 11
  | .R12 => 12 | .R13 => 13 | .R14 => 14 | .R15 => 15
  | .XMM0 => 16 | .XMM1 => 17 | .XMM2 => 18 | .XMM3 => 19
  | .XMM4 => 20 | .XMM5 => 21 | .XMM6 => 22 | .XMM7 => 23

/-- Modelled from the spec: the 3-bit machine encoding of each
register (`RegByte` of the register header, not in the given sources);
the per-architecture numeric encoding of the data model, with the
extended registers R8..R15 reusing the codes 0..7 of the base eight. -/
def regByte : Reg → Nat
  | .RAX => 0 | .RCX => 1 | .RDX => 2 | .RBX => 3
  | .RSP => 4 | .RBP => 5 | .RSI => 6 | .RDI => 7
  | .R8  => 0 | .R9  => 1 | .R10 => 2 | .R11 => 3
  | .R12 => 4 | .R13 => 5 | .R14 => 6 | .R15 => 7
  | .XMM0 => 0 | .XMM1 => 1 | .XMM2 => 2 | .XMM3 => 3
  | .XMM4 => 4 | .XMM5 => 5 | .XMM6 => 6 | .XMM7 => 7

/-- Modelled from the spec: `Is64Reg` of the register header (not in
the given sources): the 64-bit general-purpose registers are exactly
RAX..R15; the SSE registers are not 64-bit operand-size registers. -/
def is64Reg (r : Reg) : Bool :=
  regOrd r ≤ 15

/-- A register of the extended range R8..R15 (beyond the base eight),
which only the REX.B prefix bit can address. -/
def isExtReg (r : Reg) : Bool :=
  8 ≤ regOrd r && regOrd r ≤ 15

/- Constants of AMD64Opcode.h. -/

def REX_Base : Nat := 0x40  -- `REX_Prefix` in AMD64Opcode.h
def REX_W : Nat := 0x08
def REX_B : Nat := 0x01

def Operand_Mod01 : Nat := 0x40
def Operand_Mod10 : Nat := 0x80
def Operand_Mod11 : Nat := 0xC0

def Opcode_PushImm : Nat := 0x68
def Opcode_PushImm8 : Nat := 0x6A
def Opcode_PushReg : Nat := 0x50
def Opcode_PopReg : Nat := 0x58
def Opcode_AddImm : Nat := 0x81
def Opcode_SubImm : Nat := 0x81
def Opcode_DivReg : Nat := 0xF7
def Opcode_MovRegImm : Nat := 0xB8
def Opcode_MovMemImm : Nat := 0xC7
def Opcode_MovMemReg : Nat := 0x89
def Opcode_RetNear : Nat := 0xC3
def Opcode_RetFar : Nat := 0xCB
def Opcode_RetNearImm16 : Nat := 0xC2
def Opcode_RetFarImm16 : Nat := 0xCA
def Opcode_CallNear : Nat := 0x10

/- Little-endian serialisation of the multi-byte immediates
(`IsLittleEndian` returns true in the source, so `WriteWord`,
`WriteDWord` and `WriteQWord` write the least significant byte
first). -/

def wordBytes (w : Nat) : List Nat :=
  [w % 2^8, w / 2^8 % 2^8]

def dwordBytes (d : Nat) : List Nat :=
  [d % 2^8, d / 2^8 % 2^8, d / 2^16 % 2^8, d / 2^24 % 2^8]

def qwordBytes (q : Nat) : List Nat :=
  [q % 2^8, q / 2^8 % 2^8, q / 2^16 % 2^8, q / 2^24 % 2^8,
   q / 2^32 % 2^8, q / 2^40 % 2^8, q / 2^48 % 2^8, q / 2^56 % 2^8]

/-- `AMD64Assembler::WriteREXOpt`: build an optional REX prefix byte.
The prefix accumulates REX.W for a 64-bit register and additionally
REX.B for a register at or beyond R8, and is written only when it is
non-zero (so registers that need no prefix emit no byte at all). -/
def writeREXOpt (r : Reg) : List Nat :=
  let p0 : Nat :=
    if is64Reg r then
      (if 8 ≤ regOrd r then REX_W ||| REX_B else REX_W)
    else 0
  if p0 ≠ 0 then [REX_Base ||| p0] else []

/-- One abstract instruction per emission primitive of the C++
assembler class. -/
inductive Instr
  | pushReg (r : Reg)
  | pushImm8 (b : Nat)
  | pushImm32 (d : Nat)
  | popReg (r : Reg)
  | movReg (dst src : Reg)
  | movRegImm32 (r : Reg) (d : Nat)
  | movRegImm64 (r : Reg) (q : Nat)
  | movMemImm32 (r : Reg) (d offset : Nat)
  | movMemReg (dstMem src : Reg) (offset : Nat)
  | addImm32 (r : Reg) (d : Nat)
  | subImm32 (r : Reg) (d : Nat)
  | divReg (r : Reg)
  | callNear (r : Reg)
  | retNear (w : Nat)
  | retFar (w : Nat)
deriving DecidableEq, Repr

/-- The exact bytes each C++ emission primitive appends to the code
buffer, method by method from AMD64Assembler.cpp.  `UCHAR_MAX` of the
source is 255. -/
def encode : Instr → List Nat
  | .pushReg r => [Opcode_PushReg ||| regByte r]
  | .pushImm8 b => [Opcode_PushImm8, b % 2^8]
  | .pushImm32 d => Opcode_PushImm :: dwordBytes d
  | .popReg r => [Opcode_PopReg ||| regByte r]
  | .movReg dst src =>
      writeREXOpt dst ++
        [Opcode_MovMemReg, Operand_Mod11 ||| (regByte src <<< 3) ||| regByte dst]
  | .movRegImm32 r d => (Opcode_MovRegImm ||| regByte r) :: dwordBytes d
  | .movRegImm64 r q =>
      writeREXOpt r ++ ((Opcode_MovRegImm ||| regByte r) :: qwordBytes q)
  | .movMemImm32 r d offset =>
      let disp : Nat :=
        if offset > 0 then
          (if offset > 255 then Operand_Mod10 else Operand_Mod01)
        else 0
      writeREXOpt r ++ [Opcode_MovMemImm, disp ||| regByte r] ++
        (if offset > 0 then
          (if offset > 255 then dwordBytes offset else [offset % 2^8])
         else []) ++
        dwordBytes d
  | .movMemReg dstMem src offset =>
      let disp : Nat :=
        if offset > 0 then
          (if offset > 255 then Operand_Mod10 else Operand_Mod01)
        else 0
      writeREXOpt src ++
        [Opcode_MovMemReg, disp ||| (regByte src <<< 3) ||| regByte dstMem] ++
        (if offset > 0 then
          (if offset > 255 then dwordBytes offset else [offset % 2^8])
         else [])
  | .addImm32 r d =>
      writeREXOpt r ++ [Opcode_AddImm, Operand_Mod11 ||| regByte r] ++ dwordBytes d
  | .subImm32 r d =>
      writeREXOpt r ++ [Opcode_SubImm, Operand_Mod11 ||| (5 <<< 3) ||| regByte r] ++
        dwordBytes d
  | .divReg r =>
      writeREXOpt r ++ [Opcode_DivReg, Operand_Mod11 ||| (6 <<< 3) ||| regByte r]
  | .callNear r => [0xFF, Opcode_CallNear ||| Operand_Mod11 ||| regByte r]
  | .retNear w =>
      if w > 0 then Opcode_RetNearImm16 :: wordBytes w else [Opcode_RetNear]
  | .retFar w =>
      if w > 0 then Opcode_RetFarImm16 :: wordBytes w else [Opcode_RetFar]

/-- The closed tag set of argument types of the data model (the
source switches over exactly these seven tags). -/
inductive ArgType
  | Byte | Word | DWord | QWord | Ptr | Float | Double
deriving DecidableEq, Repr

/-- Modelled from the spec: `IsFloat` of the JIT compiler header (not
in the given sources): Float and Double prefer the floating-point
register class, every other tag the integer class. -/
def isFloat : ArgType → Bool
  | .Float => true
  | .Double => true
  | _ => false

/-- One call argument: a type tag plus the raw 64-bit payload of the
union.  The union accessors `i8`, `i16`, `i32`, `i64` of the source
read the low bytes of the payload (little-endian host). -/
structure ArgValue where
  type : ArgType
  value : Nat
deriving DecidableEq, Repr

def ArgValue.i8 (a : ArgValue) : Nat := a.value % 2^8
def ArgValue.i16 (a : ArgValue) : Nat := a.value % 2^16
def ArgValue.i32 (a : ArgValue) : Nat := a.value % 2^32
def ArgValue.i64 (a : ArgValue) : Nat := a.value % 2^64

/-- The two builds of the source file: the register parameter tables
are chosen by the `_WIN32` preprocessor conditional, so the choice is
a property of the build platform. -/
inductive Platform
  | windows | unix
deriving DecidableEq, Repr

/-- `g_amd64IntParams`: Microsoft x64 order under `_WIN32`, System V
AMD64 order otherwise. -/
def g_amd64IntParams : Platform → List Reg
  | .windows => [.RCX, .RDX, .R8, .R9]
  | .unix => [.RDI, .RSI, .RDX, .RCX, .R8, .R9]

/-- `g_amd64FltParams`. -/
def g_amd64FltParams : Platform → List Reg
  | .windows => [.XMM0, .XMM1, .XMM2, .XMM3]
  | .unix => [.XMM0, .XMM1, .XMM2, .XMM3, .XMM4, .XMM5, .XMM6, .XMM7]

def g_amd64IntParamsCount (p : Platform) : Nat := (g_amd64IntParams p).length

def g_amd64FltParamsCount (p : Platform) : Nat := (g_amd64FltParams p).length

/-- Modelled from the spec: the calling-convention enumeration of the
JIT compiler header (not in the given sources); an enumeration
selecting one ABI variant. -/
inductive JITCallConv
  | cdeclConv | stdcallConv | thiscallConv
deriving DecidableEq, Repr

/-- The instructions `WriteFuncCall` emits to move one
register-assigned argument into its destination register: registers
R8..R15 always take the 64-bit immediate form, otherwise the source
switches on the argument type; the Float and Double cases of the
switch are empty (they are left as pending work in the source and
emit nothing). -/
def movArgInstr (dstReg : Reg) (arg : ArgValue) : List Instr :=
  if 8 ≤ regOrd dstReg ∧ regOrd dstReg ≤ 15 then
    [.movRegImm64 dstReg arg.i64]
  else
    match arg.type with
    | .Byte => [.movRegImm32 dstReg arg.i8]
    | .Word => [.movRegImm32 dstReg arg.i16]
    | .DWord => [.movRegImm32 dstReg arg.i32]
    | .QWord => [.movRegImm64 dstReg arg.i64]
    | .Ptr => [.movRegImm64 dstReg arg.i64]
    | .Float => []
    | .Double => []

/-- The running state of the register-assignment loop of
`WriteFuncCall`: the instructions emitted so far, the two register
cursors, and the indices of the last integer and last float argument
assigned to a register (`~0`, i.e. no index, initially — modelled as
`Option Nat`).  The `assigns` field records each (argument index,
destination register) pair as it is assigned; it adds no behaviour
and only names the assignment the loop performs. -/
structure AssignState where
  instrs : List Instr
  numIntRegs : Nat
  numFltRegs : Nat
  lastInt : Option Nat
  lastFlt : Option Nat
  assigns : List (Nat × Reg)
deriving DecidableEq, Repr

/-- The first loop of `WriteFuncCall`: walk the arguments from the
left; a Float or Double argument takes the next float parameter
register while any remain, any other argument takes the next integer
parameter register while any remain, and the loop exits (`break`) at
the first argument for which its class has no register left. -/
def regAssignGo (ip fp : List Reg) : List ArgValue → Nat → AssignState → AssignState
  | [], _, s => s
  | arg :: rest, i, s =>
    if isFloat arg.type then
      if s.numFltRegs < fp.length then
        let dstReg := fp.getD s.numFltRegs Reg.R10
        regAssignGo ip fp rest (i + 1)
          { instrs := s.instrs ++ movArgInstr dstReg arg
            numIntRegs := s.numIntRegs
            numFltRegs := s.numFltRegs + 1
            lastInt := s.lastInt
            lastFlt := some i
            assigns := s.assigns ++ [(i, dstReg)] }
      else s
    else
      if s.numIntRegs < ip.length then
        let dstReg := ip.getD s.numIntRegs Reg.R10
        regAssignGo ip fp rest (i + 1)
          { instrs := s.instrs ++ movArgInstr dstReg arg
            numIntRegs := s.numIntRegs + 1
            numFltRegs := s.numFltRegs
            lastInt := some i
            lastFlt := s.lastFlt
            assigns := s.assigns ++ [(i, dstReg)] }
      else s

def regAssignLoop (p : Platform) (args : List ArgValue) : AssignState :=
  regAssignGo (g_amd64IntParams p) (g_amd64FltParams p) args 0
    ⟨[], 0, 0, none, none, []⟩

/-- The push the spill loop emits for one argument, by its type tag:
`PushImm16` of the source delegates to `PushImm32` (the 16-bit value
is zero-extended at the call), and the QWord, Ptr and Double cases of
the switch are empty in the source (the register-push sequence there
is commented out), so they emit nothing. -/
def pushArgInstr (arg : ArgValue) : List Instr :=
  match arg.type with
  | .Byte => [.pushImm8 arg.i8]
  | .Word => [.pushImm32 arg.i16]
  | .DWord => [.pushImm32 arg.i32]
  | .Float => [.pushImm32 arg.i32]
  | .QWord => []
  | .Ptr => []
  | .Double => []

/-- The second loop of `WriteFuncCall`, over (reverse index, argument)
pairs in reverse declaration order: the loop exits (`break`) at the
first argument whose index equals the recorded last register-assigned
index of its own class, and pushes every argument before that point. -/
def spillGo (lastInt lastFlt : Option Nat) : List (Nat × ArgValue) → List Instr
  | [] => []
  | (iRev, arg) :: rest =>
    if (isFloat arg.type && lastFlt == some iRev) ||
       (!isFloat arg.type && lastInt == some iRev) then
      []
    else
      pushArgInstr arg ++ spillGo lastInt lastFlt rest

/-- All instructions the stack-spill pass of `WriteFuncCall` emits. -/
def spillInstrs (p : Platform) (args : List ArgValue) : List Instr :=
  let s := regAssignLoop p args
  spillGo s.lastInt s.lastFlt args.enum.reverse

/-- `AMD64Assembler::WriteFuncCall`: the register-assignment loop, the
stack-spill loop, then the load of the absolute address into RAX and
the indirect near call through RAX.  The source never reads its
`conv` and `farCall` parameters. -/
def writeFuncCall (p : Platform) (conv : JITCallConv) (args : List ArgValue)
    (addr : Nat) (farCall : Bool) : List Instr :=
  (regAssignLoop p args).instrs ++ spillInstrs p args ++
    [.movRegImm64 .RAX addr, .callNear .RAX]

/-- `AMD64Assembler::Begin`: push RBP, move RSP into RBP, subtract
0x20 from RSP (the disabled `#if 0` test block of the source is not
compiled). -/
def beginSeq : List Instr :=
  [.pushReg .RBP, .movReg .RBP .RSP, .subImm32 .RSP 0x20]

/-- `AMD64Assembler::End`: add 0x20 back to RSP, pop RBP, near
return with no immediate. -/
def endSeq : List Instr :=
  [.addImm32 .RSP 0x20, .popReg .RBP, .retNear 0]

/-- The full generated sequence of one trampoline body: prologue,
call-site code, epilogue. -/
def fullSeq (p : Platform) (conv : JITCallConv) (args : List ArgValue)
    (addr : Nat) (farCall : Bool) : List Instr :=
  beginSeq ++ writeFuncCall p conv args addr farCall ++ endSeq

/-- Modelled from the spec: the net stack-pointer displacement each
instruction causes on AMD64 — a push decrements RSP by the natural
width of eight bytes, a pop increments it by eight, and the immediate
add and subtract move RSP only when RSP is their destination.  The
near call transfers to a callee that returns with a plain near
return, so call plus callee return are a net zero under the
caller-cleanup convention. -/
def stackEffect : Instr → Int
  | .pushReg _ => -8
  | .pushImm8 _ => -8
  | .pushImm32 _ => -8
  | .popReg _ => 8
  | .subImm32 r d => if r = .RSP then -(d : Int) else 0
  | .addImm32 r d => if r = .RSP then (d : Int) else 0
  | _ => 0

def isRet : Instr → Bool
  | .retNear _ => true
  | .retFar _ => true
  | _ => false

/-- The accumulated stack-pointer displacement at the moment execution
reaches the first return instruction of the sequence. -/
def netDispBeforeRet (prog : List Instr) : Int :=
  ((prog.takeWhile fun ins => !isRet ins).map stackEffect).sum

/-
Concrete argument lists used as inputs of the claims.
-/

def argsFiveDWord : List ArgValue :=
  [⟨.DWord, 1⟩, ⟨.DWord, 2⟩, ⟨.DWord, 3⟩, ⟨.DWord, 4⟩, ⟨.DWord, 5⟩]

def argsFourDWord : List ArgValue :=
  [⟨.DWord, 1⟩, ⟨.DWord, 2⟩, ⟨.DWord, 3⟩, ⟨.DWord, 4⟩]

def argsFiveQWord : List ArgValue :=
  [⟨.QWord, 1⟩, ⟨.QWord, 2⟩, ⟨.QWord, 3⟩, ⟨.QWord, 4⟩, ⟨.QWord, 5⟩]

def argsFiveDWordOneFloat : List ArgValue :=
  argsFiveDWord ++ [⟨.Float, 0⟩]

def argsOneDWord : List ArgValue := [⟨.DWord, 7⟩]

def argsOneFloat : List ArgValue := [⟨.Float, 0x40490FDB⟩]

/-
Helper lemmas about the register-assignment loop.
-/

theorem regAssignGo_numIntRegs_le (ip fp : List Reg) (args : List ArgValue)
    (i : Nat) (s : AssignState) (h : s.numIntRegs ≤ ip.length) :
    (regAssignGo ip fp args i s).numIntRegs ≤ ip.length := by
  induction args generalizing i s with
  | nil => simpa [regAssignGo] using h
  | cons a rest ih =>
    rw [regAssignGo]
    by_cases hf : isFloat a.type = true
    · rw [if_pos hf]
      by_cases hn : s.numFltRegs < fp.length
      · rw [if_pos hn]
        exact ih _ _ h
      · rw [if_neg hn]
        exact h
    · rw [if_neg hf]
      by_cases hn : s.numIntRegs < ip.length
      · rw [if_pos hn]
        exact ih _ _ hn
      · rw [if_neg hn]
        exact h

theorem regAssignGo_numFltRegs_le (ip fp : List Reg) (args : List ArgValue)
    (i : Nat) (s : AssignState) (h : s.numFltRegs ≤ fp.length) :
    (regAssignGo ip fp args i s).numFltRegs ≤ fp.length := by
  induction args generalizing i s with
  | nil => simpa [regAssignGo] using h
  | cons a rest ih =>
    rw [regAssignGo]
    by_cases hf : isFloat a.type = true
    · rw [if_pos hf]
      by_cases hn : s.numFltRegs < fp.length
      · rw [if_pos hn]
        exact ih _ _ hn
      · rw [if_neg hn]
        exact h
    · rw [if_neg hf]
      by_cases hn : s.numIntRegs < ip.length
      · rw [if_pos hn]
        exact ih _ _ h
      · rw [if_neg hn]
        exact h

theorem regAssignGo_assigns_length (ip fp : List Reg) (args : List ArgValue)
    (i : Nat) (s : AssignState) :
    (regAssignGo ip fp args i s).assigns.length + s.numIntRegs + s.numFltRegs =
      s.assigns.length + (regAssignGo ip fp args i s).numIntRegs +
        (regAssignGo ip fp args i s).numFltRegs := by
  induction args generalizing i s with
  | nil => simp [regAssignGo]
  | cons a rest ih =>
    rw [regAssignGo]
    by_cases hf : isFloat a.type = true
    · rw [if_pos hf]
      by_cases hn : s.numFltRegs < fp.length
      · rw [if_pos hn]
        have := ih (i + 1)
          { instrs := s.instrs ++ movArgInstr (fp.getD s.numFltRegs Reg.R10) a
            numIntRegs := s.numIntRegs
            numFltRegs := s.numFltRegs + 1
            lastInt := s.lastInt
            lastFlt := some i
            assigns := s.assigns ++ [(i, fp.getD s.numFltRegs Reg.R10)] }
        simp at this ⊢
        omega
      · rw [if_neg hn]
    · rw [if_neg hf]
      by_cases hn : s.numIntRegs < ip.length
      · rw [if_pos hn]
        have := ih (i + 1)
          { instrs := s.instrs ++ movArgInstr (ip.getD s.numIntRegs Reg.R10) a
            numIntRegs := s.numIntRegs + 1
            numFltRegs := s.numFltRegs
            lastInt := some i
            lastFlt := s.lastFlt
            assigns := s.assigns ++ [(i, ip.getD s.numIntRegs Reg.R10)] }
        simp at this ⊢
        omega
      · rw [if_neg hn]

/-- The amended claim C4 statement of the register-assignment pass,
written from its words: a single left-to-right walk with one cursor
per register class; each Float or Double argument consults the float
cursor and every other argument the integer cursor; the walk stops
entirely at the first argument whose own cursor is exhausted, and
that argument together with all later arguments (of either class) is
deferred to the stack-spill pass. -/
def specAssignPass (ip fp : List Reg) : List ArgValue → Nat → Nat → Nat → List (Nat × Reg)
  | [], _, _, _ => []
  | a :: rest, i, ni, nf =>
    if isFloat a.type then
      (if nf < fp.length then
        (i, fp.getD nf Reg.R10) :: specAssignPass ip fp rest (i + 1) ni (nf + 1)
       else [])
    else
      (if ni < ip.length then
        (i, ip.getD ni Reg.R10) :: specAssignPass ip fp rest (i + 1) (ni + 1) nf
       else [])

theorem regAssignGo_assigns_eq (ip fp : List Reg) (args : List ArgValue)
    (i : Nat) (s : AssignState) :
    (regAssignGo ip fp args i s).assigns =
      s.assigns ++ specAssignPass ip fp args i s.numIntRegs s.numFltRegs := by
  induction args generalizing i s with
  | nil => simp [regAssignGo, specAssignPass]
  | cons a rest ih =>
    rw [regAssignGo, specAssignPass]
    by_cases hf : isFloat a.type = true
    · rw [if_pos hf, if_pos hf]
      by_cases hn : s.numFltRegs < fp.length
      · rw [if_pos hn, if_pos hn]
        rw [ih]
        simp
      · rw [if_neg hn, if_neg hn]
        simp
    · rw [if_neg hf, if_neg hf]
      by_cases hn : s.numIntRegs < ip.length
      · rw [if_pos hn, if_pos hn]
        rw [ih]
        simp
      · rw [if_neg hn, if_neg hn]
        simp

/-- A push form whose stack slot has the natural AMD64 push width
(all push forms the encoder owns are of this kind; the predicate is
false on every non-push instruction). -/
def isNaturalWidthPush : Instr → Bool
  | .pushReg _ => true
  | .pushImm8 _ => true
  | .pushImm32 _ => true
  | _ => false

/-- Modelled from the spec: the width in bytes of the stack slot each
push form creates on AMD64 in 64-bit mode.  The one-byte-immediate
form 6A and the four-byte-immediate form 68 both sign-extend their
immediate to the natural push width of eight bytes, and the register
push writes eight bytes; no push form of the encoder creates a one- or
two-byte slot. -/
def pushSlotWidth : Instr → Option Nat
  | .pushReg _ => some 8
  | .pushImm8 _ => some 8
  | .pushImm32 _ => some 8
  | _ => none

theorem pushArgInstr_natural (arg : ArgValue) :
    ((pushArgInstr arg).all fun ins =>
      isNaturalWidthPush ins && decide (pushSlotWidth ins = some 8)) = true := by
  obtain ⟨t, v⟩ := arg
  cases t <;> simp [pushArgInstr, isNaturalWidthPush, pushSlotWidth]

theorem spillGo_natural (li lf : Option Nat) (l : List (Nat × ArgValue)) :
    ((spillGo li lf l).all fun ins =>
      isNaturalWidthPush ins && decide (pushSlotWidth ins = some 8)) = true := by
  induction l with
  | nil => rfl
  | cons pr rest ih =>
    obtain ⟨iRev, arg⟩ := pr
    rw [spillGo]
    by_cases hb : ((isFloat arg.type && lf == some iRev) ||
        (!isFloat arg.type && li == some iRev)) = true
    · rw [if_pos hb]
      rfl
    · rw [if_neg hb, List.all_append]
      rw [pushArgInstr_natural arg, ih]
      rfl

/-- The first byte of a byte sequence when it lies in the REX prefix
range 0x40..0x4F, and nothing otherwise: whether a decoded instruction
starts with a REX prefix, and with which value. -/
def rexHeadOpt (bs : List Nat) : Option Nat :=
  match bs.head? with
  | some b => if 0x40 ≤ b ∧ b ≤ 0x4F then some b else none
  | none => none

/-
The ten claims.
-/

/-- Claim C1 (code_bug evidence): the claim says the net stack-pointer
displacement of the full generated sequence is zero for every argument
list.  The code violates it: with five DWord arguments under the
Windows parameter table, the fifth argument is pushed by the spill
pass and never compensated, so the displacement when execution reaches
the return instruction is -8; with no arguments it is 0, showing the
imbalance comes exactly from the uncompensated spill push. -/
theorem C1_spill_push_never_compensated :
    netDispBeforeRet (fullSeq .windows .cdeclConv argsFiveDWord 0x1000 false) = -8 ∧
    netDispBeforeRet (fullSeq .unix .cdeclConv [] 0x1000 false) = 0 := by
  constructor
  · decide
  · decide

/-- Claim C2 (code_bug evidence): the claim says a Float or Double
argument assigned to a floating-point register makes the build fail
with an explicit unsupported-operation error.  The code violates it:
`WriteFuncCall` returns no error at all, and for a single Float
argument (assigned to XMM0) it silently emits only the address load
and the call — the register load is missing and nothing signals the
gap. -/
theorem C2_float_register_load_silently_skipped :
    writeFuncCall .windows .cdeclConv argsOneFloat 0x3000 false =
      [.movRegImm64 .RAX 0x3000, .callNear .RAX] ∧
    (regAssignLoop .windows argsOneFloat).assigns = [(0, Reg.XMM0)] := by
  constructor
  · decide
  · decide

/-- Claim C3 (code_bug evidence): the claim says the spill pass pushes
every argument that was not assigned a register exactly once,
including QWord, Pointer and Double arguments.  The code violates it:
with five QWord arguments under the Windows table, four are assigned
to registers and one is spilled, yet the spill pass emits no push at
all (the QWord, Ptr and Double cases of the push switch are empty in
the source). -/
theorem C3_qword_spill_emits_no_push :
    argsFiveQWord.length = 5 ∧
    (regAssignLoop .windows argsFiveQWord).assigns.length = 4 ∧
    spillInstrs .windows argsFiveQWord = [] := by
  refine ⟨by decide, by decide, by decide⟩

/-- Claim C4 counterexample: with five DWord arguments followed by one
Float argument under the Windows table, the integer cursor is
exhausted at the fifth argument and the loop stops there, so the Float
argument at index 5 receives no register even though the float cursor
is entirely unused (0 of 4 float registers taken) — refuting the claim
that later arguments of the other class still receive registers. -/
theorem C4_counterexample :
    (argsFiveDWordOneFloat.map fun a => isFloat a.type) =
      [false, false, false, false, false, true] ∧
    0 < g_amd64FltParamsCount .windows ∧
    (regAssignLoop .windows argsFiveDWordOneFloat).numFltRegs = 0 ∧
    (regAssignLoop .windows argsFiveDWordOneFloat).assigns =
      [(0, .RCX), (1, .RDX), (2, .R8), (3, .R9)] := by
  refine ⟨by decide, by decide, by decide, by decide⟩

/-- Claim C4 (amended): the register-assignment pass walks the
arguments left to right with one cursor per register class, each
Float/Double argument consulting the float cursor and every other
argument the integer cursor, but it stops entirely at the first
argument whose own class cursor is exhausted: that argument and all
later arguments, including arguments of the other class whose cursor
still has free registers, are deferred to the stack-spill pass.  The
assignment the loop performs equals the pass described by these words
(`specAssignPass`). -/
theorem C4_assignment_stops_at_first_exhaustion (p : Platform) (args : List ArgValue) :
    (regAssignLoop p args).assigns =
      specAssignPass (g_amd64IntParams p) (g_amd64FltParams p) args 0 0 0 := by
  rw [regAssignLoop, regAssignGo_assigns_eq]
  rfl

/-- Claim C5 counterexample: at the four-integer-argument list the
claim itself offers as its example, every pair of distinct calling
conventions produces the identical emitted sequence, on either
platform build — the convention argument makes no difference. -/
theorem C5_counterexample :
    writeFuncCall .windows .cdeclConv argsFourDWord 0x1000 false =
      writeFuncCall .windows .stdcallConv argsFourDWord 0x1000 false ∧
    writeFuncCall .windows .cdeclConv argsFourDWord 0x1000 false =
      writeFuncCall .windows .thiscallConv argsFourDWord 0x1000 false ∧
    writeFuncCall .unix .cdeclConv argsFourDWord 0x1000 false =
      writeFuncCall .unix .stdcallConv argsFourDWord 0x1000 false ∧
    writeFuncCall .unix .cdeclConv argsFourDWord 0x1000 false =
      writeFuncCall .unix .thiscallConv argsFourDWord 0x1000 false :=
  ⟨rfl, rfl, rfl, rfl⟩

/-- Claim C5 (amended): the emitted code is independent of the
calling-convention argument, which `WriteFuncCall` never reads; the
register tables are instead fixed by the build platform (`_WIN32`
conditional), and the two platform builds do assign different register
sets to the same four-integer-argument list: RCX, RDX, R8, R9 under
the Microsoft x64 table and RDI, RSI, RDX, RCX under the System V
table. -/
theorem C5_conv_ignored_platform_decides (p : Platform) (c c2 : JITCallConv)
    (args : List ArgValue) (addr : Nat) (f : Bool) :
    writeFuncCall p c args addr f = writeFuncCall p c2 args addr f ∧
    (regAssignLoop .windows argsFourDWord).assigns =
      [(0, .RCX), (1, .RDX), (2, .R8), (3, .R9)] ∧
    (regAssignLoop .unix argsFourDWord).assigns =
      [(0, .RDI), (1, .RSI), (2, .RDX), (3, .RCX)] :=
  ⟨rfl, by decide, by decide⟩

/-- Claim C6 counterexample: R8 is an extended register, yet the push
primitive emits for it the single byte 0x50 with no REX prefix — the
same byte it emits for RAX, so the claimed extended-register prefix is
missing from `PushReg`. -/
theorem C6_counterexample :
    isExtReg .R8 = true ∧
    encode (.pushReg .R8) = [0x50] ∧
    encode (.pushReg .R8) = encode (.pushReg .RAX) ∧
    rexHeadOpt (encode (.pushReg .R8)) = none := by
  refine ⟨by decide, by decide, by decide, by decide⟩

/-- Claim C6 (amended): only `MovRegImm64` (through `WriteREXOpt`)
emits a REX prefix: for a 64-bit register it begins with 0x49
(REX.W with the extension bit REX.B) exactly when the register is one
of R8..R15 and with 0x48 (REX.W alone) otherwise, while `PushReg`,
`PopReg`, `MovRegImm32` and `CallNear` never begin with a REX prefix
for any register operand, extended or not. -/
theorem C6_rex_exactly_in_movRegImm64 (r : Reg) (q d : Nat) :
    rexHeadOpt (encode (.movRegImm64 r q)) =
      (if is64Reg r then some (if 8 ≤ regOrd r then 0x49 else 0x48) else none) ∧
    rexHeadOpt (encode (.pushReg r)) = none ∧
    rexHeadOpt (encode (.popReg r)) = none ∧
    rexHeadOpt (encode (.movRegImm32 r d)) = none ∧
    rexHeadOpt (encode (.callNear r)) = none := by
  cases r <;> exact ⟨rfl, rfl, rfl, rfl, rfl⟩

/-- Claim C7 (confirmed): for every argument list and platform table,
the register-assignment pass never hands out more integer registers
than the integer parameter table holds nor more float registers than
the float parameter table holds, and the recorded assignments are
exactly the handed-out registers (their number is the sum of the two
cursors). -/
theorem C7_register_assignment_bounded (p : Platform) (args : List ArgValue) :
    (regAssignLoop p args).numIntRegs ≤ g_amd64IntParamsCount p ∧
    (regAssignLoop p args).numFltRegs ≤ g_amd64FltParamsCount p ∧
    (regAssignLoop p args).assigns.length =
      (regAssignLoop p args).numIntRegs + (regAssignLoop p args).numFltRegs := by
  refine ⟨?_, ?_, ?_⟩
  · exact regAssignGo_numIntRegs_le _ _ args 0 _ (Nat.zero_le _)
  · exact regAssignGo_numFltRegs_le _ _ args 0 _ (Nat.zero_le _)
  · have := regAssignGo_assigns_length (g_amd64IntParams p) (g_amd64FltParams p)
      args 0 ⟨[], 0, 0, none, none, []⟩
    simpa [regAssignLoop] using this

/-- Claim C8 counterexample: with the far-call flag set,
`WriteFuncCall` emits exactly the same sequence as with it clear, and
that sequence ends in the near indirect call through RAX — a far-call
request silently degrades to the near call, with no error. -/
theorem C8_counterexample :
    writeFuncCall .windows .cdeclConv argsOneDWord 0x2000 true =
      writeFuncCall .windows .cdeclConv argsOneDWord 0x2000 false ∧
    Instr.callNear Reg.RAX ∈ writeFuncCall .windows .cdeclConv argsOneDWord 0x2000 true := by
  refine ⟨rfl, by decide⟩

/-- Claim C8 (amended): `WriteFuncCall` never reads its far-call flag:
for every input the sequences emitted with the flag set and clear are
identical, always ending with the absolute address load into RAX
followed by the near indirect call through RAX, and no error is ever
raised (the operation is total and returns a plain sequence). -/
theorem C8_farcall_flag_ignored (p : Platform) (c : JITCallConv)
    (args : List ArgValue) (addr : Nat) :
    writeFuncCall p c args addr true = writeFuncCall p c args addr false ∧
    ∃ pre, writeFuncCall p c args addr true =
      pre ++ [Instr.movRegImm64 Reg.RAX addr, Instr.callNear Reg.RAX] := by
  refine ⟨rfl, ⟨(regAssignLoop p args).instrs ++ spillInstrs p args, ?_⟩⟩
  rw [writeFuncCall, List.append_assoc]

/-- Claim C9 (confirmed): every instruction the stack-spill pass emits
is a push form whose stack slot has the natural eight-byte AMD64 push
width — no one- or two-byte-slot push form exists in the emitted
stream — and in particular a spilled Word argument is promoted to the
four-byte-immediate push form (`PushImm16` delegates to `PushImm32`
in the source) while a spilled Byte argument uses the
one-byte-immediate form whose slot is still eight bytes wide. -/
theorem C9_spilled_args_pushed_at_natural_width (p : Platform)
    (args : List ArgValue) (v : Nat) :
    ((spillInstrs p args).all fun ins =>
      isNaturalWidthPush ins && decide (pushSlotWidth ins = some 8)) = true ∧
    pushArgInstr ⟨ArgType.Word, v⟩ = [Instr.pushImm32 (v % 2^16)] ∧
    pushArgInstr ⟨ArgType.Byte, v⟩ = [Instr.pushImm8 (v % 2^8)] :=
  ⟨spillGo_natural _ _ _, rfl, rfl⟩

/-- Claim C10 (code_bug evidence): the displacement selection of the
memory moves compares the offset against 255 (`UCHAR_MAX`), not
against the signed-byte bound 127 the claim states: at offset 200 —
which does not fit in a signed byte — both `MovMemImm32` and
`MovMemReg` emit the one-byte displacement form (third byte 0x43
resp. 0x4B, then the single displacement byte 200), while offset 0
emits no displacement field and offset 300 the four-byte field. -/
theorem C10_disp8_used_above_signed_byte_range :
    encode (.movMemImm32 .RBX 0x999 200) =
      [0x48, 0xC7, 0x43, 200, 0x99, 0x09, 0x00, 0x00] ∧
    encode (.movMemReg .RBX .RCX 200) = [0x48, 0x89, 0x4B, 200] ∧
    encode (.movMemImm32 .RBX 0x999 0) =
      [0x48, 0xC7, 0x03, 0x99, 0x09, 0x00, 0x00] ∧
    encode (.movMemImm32 .RBX 0x999 300) =
      [0x48, 0xC7, 0x83, 0x2C, 0x01, 0x00, 0x00, 0x99, 0x09, 0x00, 0x00] := by
  refine ⟨by decide, by decide, by decide, by decide⟩

end LLGL.JIT
